import Mathlib

/-!
Shallow embedding of `gdatasea` (src/gdatasea/models.py and the store
operations described by the specification).

The persistence engine is modelled as a transactional store holding lists of
rows, one list per table.  Machine floats (`x`, `y`, `angle` columns) carry no
arithmetic in this code base — they are only compared for equality and for
NULL-ness by the schema constraints — so they are embedded as exact rationals.
Timestamps are embedded as a logical clock (`Nat`) ticked at each insertion.
JSON-valued columns (`JSON_VARIANT`) are embedded as an inductive JSON value
type.  Autoincrement primary keys are allocated from a counter starting at 1,
as SQLite/PostgreSQL do.
-/

namespace Gdatasea

/-- A JSON value, as stored by the `JSON_VARIANT` columns of models.py
(`attributes`, `parameters`, `output`, `plotting_kwargs`). -/
inductive Json where
  | null : Json
  | bool (b : Bool) : Json
  | num (q : Rat) : Json
  | str (s : String) : Json
  | arr (items : List Json) : Json
  | obj (entries : List (String × Json)) : Json

/-- The default value `{}` used by every `attributes` column of models.py. -/
def attributesDefault : Json := Json.obj []

/-- `DeviceDataType` enum of models.py. -/
inductive DeviceDataType where
  | simulation
  | measurement
deriving DecidableEq

/-- `AnalysisFunctionTargetModel` enum of models.py. -/
inductive AnalysisFunctionTargetModel where
  | device_data
  | die
  | wafer
deriving DecidableEq

/-- `Project` table of models.py (relationship attributes are represented by
the foreign keys on the child rows). -/
structure Project where
  pkey : Nat := 0
  project_id : String
  suffix : String
  description : Option String := none
  timestamp : Nat := 0

/-- `Cell` table of models.py. -/
structure Cell where
  pkey : Nat := 0
  cell_id : String
  attributes : Json := attributesDefault
  project_pkey : Nat
  timestamp : Nat := 0

/-- `Device` table of models.py. -/
structure Device where
  pkey : Nat := 0
  cell_pkey : Nat
  device_id : String
  attributes : Json := attributesDefault
  x : Option Rat := none
  y : Option Rat := none
  angle : Option Rat := none
  mirror : Option Bool := none
  parent_cell_pkey : Option Nat := none
  timestamp : Nat := 0

/-- `Wafer` table of models.py. -/
structure Wafer where
  pkey : Nat := 0
  wafer_id : String
  description : Option String := none
  lot_id : Option String := none
  attributes : Json := attributesDefault
  timestamp : Nat := 0
  project_pkey : Nat

/-- `Die` table of models.py. -/
structure Die where
  pkey : Nat := 0
  x : Int
  y : Int
  die_id : Option String := none
  attributes : Json := attributesDefault
  wafer_pkey : Nat
  timestamp : Nat := 0

/-- `DeviceData` table of models.py.  The `device_pkey` column is declared
`Field(foreign_key="device.pkey", nullable=True)` in the source, so the stored
column is nullable (even though the Python annotation is the non-optional
`int`); it is therefore embedded as `Option Nat`. -/
structure DeviceData where
  pkey : Nat := 0
  data_type : DeviceDataType
  path : String
  thumbnail_path : Option String := none
  attributes : Json := attributesDefault
  plotting_kwargs : Json := Json.obj []
  valid : Bool := true
  device_pkey : Option Nat
  die_pkey : Option Nat := none
  timestamp : Nat := 0
  timestamp_acquired : Option Nat := none

/-- `AnalysisFunction` table of models.py. -/
structure AnalysisFunction where
  pkey : Nat := 0
  timestamp : Nat := 0
  analysis_function_id : String
  version : Nat
  hash : String
  function_path : String
  target_model : AnalysisFunctionTargetModel
  test_target_model_pkey : Nat

/-- `Analysis` table of models.py. -/
structure Analysis where
  pkey : Nat := 0
  timestamp : Nat := 0
  parameters : Json
  output : Json
  summary_plot : String
  attributes : Json := attributesDefault
  is_latest : Bool := true
  input_hash : String
  device_data_pkey : Option Nat := none
  die_pkey : Option Nat := none
  wafer_pkey : Option Nat := none
  analysis_function_pkey : Nat

/-- The transactional store: one row list per table, an autoincrement primary
key counter (starting at 1, like SQLite/PostgreSQL rowids), and a logical
clock for insertion timestamps. -/
structure Store where
  projects : List Project := []
  cells : List Cell := []
  devices : List Device := []
  wafers : List Wafer := []
  dies : List Die := []
  device_data : List DeviceData := []
  analysis_functions : List AnalysisFunction := []
  analyses : List Analysis := []
  nextPkey : Nat := 1
  clock : Nat := 0

/-- The empty store. -/
def emptyStore : Store := {}

/-- Error kinds of the store operations (spec §7). -/
inductive DbError where
  | notFound
  | constraintViolation
deriving DecidableEq

/-- CHECK constraint `analysis_pkeys_xor_constraint` of the `Analysis` table:
`1 = (CASE WHEN device_data_pkey IS NOT NULL THEN 1 ELSE 0 END + ...)`. -/
def analysis_pkeys_xor_constraint (a : Analysis) : Bool :=
  (if a.device_data_pkey.isSome then 1 else 0)
    + (if a.die_pkey.isSome then 1 else 0)
    + (if a.wafer_pkey.isSome then 1 else 0) == 1

/-- CHECK constraint `unique_device_cell_references` of the `Device` table:
`parent_cell_pkey <> cell_pkey`.  As in SQL, a NULL `parent_cell_pkey` makes
the comparison NULL, which does not violate a CHECK constraint. -/
def unique_device_cell_references (d : Device) : Bool :=
  match d.parent_cell_pkey with
  | none => true
  | some p => p != d.cell_pkey

/-- CHECK constraint `parent_cell_coordinate_reference_not_null` of the
`Device` table: either `parent_cell_pkey`, `x`, `y`, `angle`, `mirror` are all
NULL or they are all non-NULL. -/
def parent_cell_coordinate_reference_not_null (d : Device) : Bool :=
  (d.parent_cell_pkey.isNone && d.x.isNone && d.y.isNone && d.angle.isNone
      && d.mirror.isNone)
    || (d.parent_cell_pkey.isSome && d.x.isSome && d.y.isSome && d.angle.isSome
      && d.mirror.isSome)

/-- SQL equality on nullable columns as used by UNIQUE constraints: two values
conflict only when both are non-NULL and equal (NULLs never compare equal). -/
def sqlEq {α : Type} [DecidableEq α] (a b : Option α) : Bool :=
  match a, b with
  | some x, some y => x == y
  | _, _ => false

/-- Conflict under UNIQUE constraint `unique_coord_cells_on_device` on
`(x, y, angle, mirror, parent_cell_pkey, cell_pkey)`. -/
def unique_coord_cells_on_device (d e : Device) : Bool :=
  sqlEq d.x e.x && sqlEq d.y e.y && sqlEq d.angle e.angle
    && sqlEq d.mirror e.mirror && sqlEq d.parent_cell_pkey e.parent_cell_pkey
    && d.cell_pkey == e.cell_pkey

/-- Conflict under UNIQUE constraint `unique_device_ids_per_cell` on
`(cell_pkey, device_id)`. -/
def unique_device_ids_per_cell (d e : Device) : Bool :=
  d.cell_pkey == e.cell_pkey && d.device_id == e.device_id

/-- Any `Device` uniqueness conflict between a candidate row and an existing
row. -/
def deviceConflict (d e : Device) : Bool :=
  unique_coord_cells_on_device d e || unique_device_ids_per_cell d e

mutual

/-- Structural content fingerprint of a JSON value; used to build the
`input_hash` memoization key of spec §4.4 step 1. -/
def Json.fingerprint : Json → String
  | .null => "n"
  | .bool b => if b then "T" else "F"
  | .num q => "q" ++ toString q
  | .str s => "s" ++ toString s.length ++ ":" ++ s
  | .arr items => "a(" ++ fingerprintItems items ++ ")"
  | .obj entries => "o(" ++ fingerprintEntries entries ++ ")"

/-- Fingerprint of the items of a JSON array. -/
def fingerprintItems : List Json → String
  | [] => ""
  | v :: rest => Json.fingerprint v ++ ";" ++ fingerprintItems rest

/-- Fingerprint of the entries of a JSON object. -/
def fingerprintEntries : List (String × Json) → String
  | [] => ""
  | (k, v) :: rest =>
      "k" ++ toString k.length ++ ":" ++ k ++ "=" ++ Json.fingerprint v ++ ";"
        ++ fingerprintEntries rest

end

/-- Modelled from the spec: `input_hash` is "a content fingerprint over
`parameters` and any state of `target` the function declares as relevant"
(§4.4 step 1).  The relevant target state is abstracted as a string. -/
def inputHash (parameters : Json) (targetState : String) : String :=
  Json.fingerprint parameters ++ "|" ++ targetState

/-- Insert a `Project` row: enforces the unique `project_id` column,
allocates the primary key and the creation timestamp. -/
def insertProject (s : Store) (r : Project) : Except DbError (Store × Project) :=
  if s.projects.any (fun p => p.project_id == r.project_id) then
    .error .constraintViolation
  else
    let row := { r with pkey := s.nextPkey, timestamp := s.clock }
    .ok ({ s with projects := s.projects ++ [row],
                  nextPkey := s.nextPkey + 1, clock := s.clock + 1 }, row)

/-- Insert a `Cell` row: the owning project must exist (spec §4.2, `NotFound`
otherwise) and `unique_id_and_project_on_cell` is enforced. -/
def insertCell (s : Store) (r : Cell) : Except DbError (Store × Cell) :=
  if s.projects.any (fun p => p.pkey == r.project_pkey) then
    if s.cells.any (fun c =>
        c.project_pkey == r.project_pkey && c.cell_id == r.cell_id) then
      .error .constraintViolation
    else
      let row := { r with pkey := s.nextPkey, timestamp := s.clock }
      .ok ({ s with cells := s.cells ++ [row],
                    nextPkey := s.nextPkey + 1, clock := s.clock + 1 }, row)
  else
    .error .notFound

/-- Insert a `Device` row: the two CHECK constraints of the `Device` table are
validated first, then the owning cell and the (optional) parent cell must
exist, then the two UNIQUE constraints are enforced. -/
def insertDevice (s : Store) (r : Device) : Except DbError (Store × Device) :=
  if unique_device_cell_references r
      && parent_cell_coordinate_reference_not_null r then
    if s.cells.any (fun c => c.pkey == r.cell_pkey)
        && (match r.parent_cell_pkey with
            | none => true
            | some pp => s.cells.any (fun c => c.pkey == pp)) then
      if s.devices.any (fun e => deviceConflict r e) then
        .error .constraintViolation
      else
        let row := { r with pkey := s.nextPkey, timestamp := s.clock }
        .ok ({ s with devices := s.devices ++ [row],
                      nextPkey := s.nextPkey + 1, clock := s.clock + 1 }, row)
    else
      .error .notFound
  else
    .error .constraintViolation

/-- Insert a `Wafer` row: the owning project must exist and
`unique_wafer_id_per_project` is enforced. -/
def insertWafer (s : Store) (r : Wafer) : Except DbError (Store × Wafer) :=
  if s.projects.any (fun p => p.pkey == r.project_pkey) then
    if s.wafers.any (fun w =>
        w.project_pkey == r.project_pkey && w.wafer_id == r.wafer_id) then
      .error .constraintViolation
    else
      let row := { r with pkey := s.nextPkey, timestamp := s.clock }
      .ok ({ s with wafers := s.wafers ++ [row],
                    nextPkey := s.nextPkey + 1, clock := s.clock + 1 }, row)
  else
    .error .notFound

/-- Insert a `Die` row: the owning wafer must exist and `unique_wafer_die`
on `(x, y, wafer_pkey)` is enforced. -/
def insertDie (s : Store) (r : Die) : Except DbError (Store × Die) :=
  if s.wafers.any (fun w => w.pkey == r.wafer_pkey) then
    if s.dies.any (fun d =>
        d.x == r.x && d.y == r.y && d.wafer_pkey == r.wafer_pkey) then
      .error .constraintViolation
    else
      let row := { r with pkey := s.nextPkey, timestamp := s.clock }
      .ok ({ s with dies := s.dies ++ [row],
                    nextPkey := s.nextPkey + 1, clock := s.clock + 1 }, row)
  else
    .error .notFound

/-- Insert a `DeviceData` row.  The `device_pkey` and `die_pkey` columns are
both nullable in the stored schema (see `DeviceData`), and, as in SQL, a
foreign key is only checked when the referencing value is non-NULL. -/
def insertDeviceData (s : Store) (r : DeviceData) :
    Except DbError (Store × DeviceData) :=
  if (match r.device_pkey with
      | none => true
      | some dp => s.devices.any (fun d => d.pkey == dp))
      && (match r.die_pkey with
          | none => true
          | some dp => s.dies.any (fun d => d.pkey == dp)) then
    let row := { r with pkey := s.nextPkey, timestamp := s.clock }
    .ok ({ s with device_data := s.device_data ++ [row],
                  nextPkey := s.nextPkey + 1, clock := s.clock + 1 }, row)
  else
    .error .notFound

/-- Modelled from the spec: `AnalysisFunctionRegistry.register(function_id,
version, hash, path, target_model)` (§4.3) "creates a new version record;
fails with `ConstraintViolation` if `(function_id, version)` already exists".
The registry operation itself is not part of src/; the uniqueness rule it
enforces is UNIQUE constraint `unique_analysis_function_id_version` of the
`analysis_function` table in models.py.  The extra
`test_target_model_pkey` column of that table is passed through. -/
def register (s : Store) (function_id : String) (version : Nat) (h : String)
    (path : String) (target_model : AnalysisFunctionTargetModel)
    (test_target_model_pkey : Nat) : Except DbError (Store × AnalysisFunction) :=
  if s.analysis_functions.any (fun f =>
      f.analysis_function_id == function_id && f.version == version) then
    .error .constraintViolation
  else
    let row : AnalysisFunction :=
      { pkey := s.nextPkey, timestamp := s.clock,
        analysis_function_id := function_id, version := version, hash := h,
        function_path := path, target_model := target_model,
        test_target_model_pkey := test_target_model_pkey }
    .ok ({ s with analysis_functions := s.analysis_functions ++ [row],
                  nextPkey := s.nextPkey + 1, clock := s.clock + 1 }, row)

/-- Insert an `Analysis` row: CHECK constraint
`analysis_pkeys_xor_constraint` is validated first (spec §4.4 step 5 rejects
with `ConstraintViolation` before anything else); then the analysis function
and the single referenced target row must exist. -/
def insertAnalysis (s : Store) (r : Analysis) :
    Except DbError (Store × Analysis) :=
  if analysis_pkeys_xor_constraint r then
    if s.analysis_functions.any (fun f => f.pkey == r.analysis_function_pkey)
        && (match r.device_data_pkey with
            | none => true
            | some p => s.device_data.any (fun d => d.pkey == p))
        && (match r.die_pkey with
            | none => true
            | some p => s.dies.any (fun d => d.pkey == p))
        && (match r.wafer_pkey with
            | none => true
            | some p => s.wafers.any (fun w => w.pkey == p)) then
      let row := { r with pkey := s.nextPkey, timestamp := s.clock }
      .ok ({ s with analyses := s.analyses ++ [row],
                    nextPkey := s.nextPkey + 1, clock := s.clock + 1 }, row)
    else
      .error .notFound
  else
    .error .constraintViolation

/-- Modelled from the spec: the "target entity" of an analysis, exactly one
of a `DeviceData`, a `Die` or a `Wafer` row (§2, §4.4). -/
inductive AnalysisTarget where
  | deviceData (pkey : Nat)
  | die (pkey : Nat)
  | wafer (pkey : Nat)

/-- The triple of nullable reference columns an `Analysis` row stores for a
given target. -/
def AnalysisTarget.refs : AnalysisTarget → Option Nat × Option Nat × Option Nat
  | .deviceData p => (some p, none, none)
  | .die p => (none, some p, none)
  | .wafer p => (none, none, some p)

/-- The entity kind a target belongs to, for the `target_model` check of
spec §4.4 step 5. -/
def AnalysisTarget.kind : AnalysisTarget → AnalysisFunctionTargetModel
  | .deviceData _ => .device_data
  | .die _ => .die
  | .wafer _ => .wafer

/-- Whether a target row exists in the store. -/
def AnalysisTarget.existsIn (s : Store) : AnalysisTarget → Bool
  | .deviceData p => s.device_data.any (fun d => d.pkey == p)
  | .die p => s.dies.any (fun d => d.pkey == p)
  | .wafer p => s.wafers.any (fun w => w.pkey == p)

/-- Whether an `Analysis` row references exactly this target. -/
def targetMatches (t : AnalysisTarget) (a : Analysis) : Bool :=
  decide ((a.device_data_pkey, a.die_pkey, a.wafer_pkey) = t.refs)

/-- Whether an `Analysis` row is the latest row of the
`(analysis_function, target)` pair. -/
def isLatestFor (fpkey : Nat) (t : AnalysisTarget) (a : Analysis) : Bool :=
  a.analysis_function_pkey == fpkey && targetMatches t a && a.is_latest

/-- Modelled from the spec: step 2 of the `record_result` protocol (§4.4),
"look up the current latest Analysis for `(function, target)`". -/
def findLatest (s : Store) (fpkey : Nat) (t : AnalysisTarget) :
    Option Analysis :=
  s.analyses.find? (isLatestFor fpkey t)

/-- Modelled from the spec: the demotion half of step 4 of the `record_result`
protocol (§4.4) — a previous row of the `(function, target)` pair is flipped
to `is_latest = false`; rows of other pairs are untouched. -/
def demote (fpkey : Nat) (t : AnalysisTarget) (a : Analysis) : Analysis :=
  if a.analysis_function_pkey == fpkey && targetMatches t a then
    { a with is_latest := false }
  else a

/-- Modelled from the spec: the fresh `Analysis` row inserted by step 4 of
the `record_result` protocol (§4.4), flagged `is_latest = true` and
referencing exactly the given target. -/
def newAnalysisRow (s : Store) (fpkey : Nat) (t : AnalysisTarget)
    (parameters output : Json) (summary_plot hh : String) : Analysis :=
  { pkey := s.nextPkey, timestamp := s.clock, parameters := parameters,
    output := output, summary_plot := summary_plot, is_latest := true,
    input_hash := hh, device_data_pkey := t.refs.1, die_pkey := t.refs.2.1,
    wafer_pkey := t.refs.2.2, analysis_function_pkey := fpkey }

/-- Modelled from the spec: step 4 (with the validation of step 5) of the
`record_result` protocol (§4.4).  Atomically: validate that the function
exists, that its declared `target_model` matches the target's kind, and that
the target row exists; then insert the new `Analysis` with `is_latest = true`
and flip every previous latest row of the pair to `is_latest = false`. -/
def recordNew (s : Store) (fpkey : Nat) (t : AnalysisTarget)
    (parameters output : Json) (summary_plot : String) (h : String) :
    Except DbError (Store × Analysis) :=
  match s.analysis_functions.find? (fun f => f.pkey == fpkey) with
  | none => .error .notFound
  | some f =>
    if f.target_model == t.kind then
      if t.existsIn s then
        let row := newAnalysisRow s fpkey t parameters output summary_plot h
        .ok ({ s with
               analyses := s.analyses.map (demote fpkey t) ++ [row],
               nextPkey := s.nextPkey + 1, clock := s.clock + 1 }, row)
      else
        .error .notFound
    else
      .error .constraintViolation

/-- Modelled from the spec: the `record_result(function, target, parameters,
output, summary_plot)` memoization protocol of §4.4.  Compute the
`input_hash` over the parameters and the relevant target state (step 1);
look up the current latest row of the pair (step 2); if it exists and its
hash matches, return it with no change to the store (step 3); otherwise
record a new latest row and demote the previous one (steps 4-5). -/
def record_result (s : Store) (fpkey : Nat) (t : AnalysisTarget)
    (parameters output : Json) (summary_plot : String) (targetState : String) :
    Except DbError (Store × Analysis) :=
  match findLatest s fpkey t with
  | some a =>
      if a.input_hash == inputHash parameters targetState then .ok (s, a)
      else recordNew s fpkey t parameters output summary_plot
        (inputHash parameters targetState)
  | none =>
      recordNew s fpkey t parameters output summary_plot
        (inputHash parameters targetState)

/-- Python truthiness of a nullable integer column, as tested by the
`if v` filter inside `Analysis.analysis_id` (`None` and `0` are falsy). -/
def pyTruthy (v : Option Nat) : Bool :=
  match v with
  | none => false
  | some n => n != 0

/-- The list comprehension inside `Analysis.analysis_id`:
`[str(k) + ' #' + str(v) for k, v in mapping.items() if v]` over the ordered
mapping `Device Data / Die / Wafer`. -/
def Analysis.targetLabels (a : Analysis) : List String :=
  [("Device Data", a.device_data_pkey), ("Die", a.die_pkey),
   ("Wafer", a.wafer_pkey)].filterMap (fun kv =>
    match kv.2 with
    | some v => if v != 0 then some (kv.1 ++ " #" ++ toString v) else none
    | none => none)

/-- The `analysis_id` property of the `Analysis` model: the id of the
analysis function (the loaded `analysis_function` relationship row) combined
with the label of the first truthy target reference.  Indexing `[0]` into
the comprehension is partial; the `IndexError` raised on an empty list is
embedded as `none`. -/
def Analysis.analysis_id (a : Analysis) (f : AnalysisFunction) :
    Option String :=
  (a.targetLabels.head?).map (fun label =>
    f.analysis_function_id ++ " on " ++ label)

/-- Number of latest rows the store holds for one
`(analysis_function, target)` pair. -/
def latestCount (s : Store) (fpkey : Nat) (t : AnalysisTarget) : Nat :=
  s.analyses.countP (isLatestFor fpkey t)

/-- The at-most-one-latest invariant of spec §4.4. -/
def atMostOneLatest (s : Store) : Prop :=
  ∀ fpkey t, latestCount s fpkey t ≤ 1

/-- The argument tuple of one `record_result` call. -/
structure RecordCall where
  fpkey : Nat
  target : AnalysisTarget
  parameters : Json
  output : Json
  summary_plot : String
  targetState : String

/-- Run one `record_result` call against the store; a failed call leaves the
store unchanged (transaction rollback, spec §7). -/
def applyCall (s : Store) (c : RecordCall) : Store :=
  match record_result s c.fpkey c.target c.parameters c.output c.summary_plot
      c.targetState with
  | .ok (s', _) => s'
  | .error _ => s

/-- Run a sequence of `record_result` calls.  Spec §5 requires supersession
to be serialized per key, so a set of concurrent calls is observed as some
such sequence. -/
def applyCalls (s : Store) (cs : List RecordCall) : Store :=
  cs.foldl applyCall s

/-- A nullable reference column is positive when set (autoincrement primary
keys start at 1, so 0 is never a valid row reference). -/
def posRef (v : Option Nat) : Bool :=
  match v with
  | none => true
  | some p => decide (1 ≤ p)

/-- Structural invariant maintained by every store operation: the primary key
counter stays positive, every `Analysis` row satisfies the XOR CHECK
constraint and references rows with positive primary keys, every `Device` row
satisfies its two CHECK constraints, and the rows of the three analysis
target tables have positive primary keys. -/
def storeInv (s : Store) : Bool :=
  decide (1 ≤ s.nextPkey)
    && s.analyses.all (fun a => analysis_pkeys_xor_constraint a
        && posRef a.device_data_pkey && posRef a.die_pkey
        && posRef a.wafer_pkey)
    && s.devices.all (fun d => unique_device_cell_references d
        && parent_cell_coordinate_reference_not_null d)
    && s.device_data.all (fun r => decide (1 ≤ r.pkey))
    && s.dies.all (fun r => decide (1 ≤ r.pkey))
    && s.wafers.all (fun r => decide (1 ≤ r.pkey))

/-- The reachable states of the store: the empty store, grown by any
succession of successful operations (failed operations roll back, leaving
the store unchanged). -/
inductive Reachable : Store → Prop where
  | empty : Reachable emptyStore
  | project {s s' : Store} {r r' : Project} :
      Reachable s → insertProject s r = .ok (s', r') → Reachable s'
  | cell {s s' : Store} {r r' : Cell} :
      Reachable s → insertCell s r = .ok (s', r') → Reachable s'
  | device {s s' : Store} {r r' : Device} :
      Reachable s → insertDevice s r = .ok (s', r') → Reachable s'
  | wafer {s s' : Store} {r r' : Wafer} :
      Reachable s → insertWafer s r = .ok (s', r') → Reachable s'
  | die {s s' : Store} {r r' : Die} :
      Reachable s → insertDie s r = .ok (s', r') → Reachable s'
  | deviceData {s s' : Store} {r r' : DeviceData} :
      Reachable s → insertDeviceData s r = .ok (s', r') → Reachable s'
  | registerFn {s s' : Store} {fid h path : String} {v tp : Nat}
      {tm : AnalysisFunctionTargetModel} {r' : AnalysisFunction} :
      Reachable s → register s fid v h path tm tp = .ok (s', r') →
      Reachable s'
  | analysis {s s' : Store} {r r' : Analysis} :
      Reachable s → insertAnalysis s r = .ok (s', r') → Reachable s'
  | result {s s' : Store} {fpkey : Nat} {t : AnalysisTarget}
      {parameters output : Json} {sp ts : String} {r' : Analysis} :
      Reachable s →
      record_result s fpkey t parameters output sp ts = .ok (s', r') →
      Reachable s'

/-- Spec §8 scenario: project `"P1"` with suffix `"gds"`. -/
def projP1 : Project := { project_id := "P1", suffix := "gds" }

/-- `projP1` as stored (primary key 1). -/
def projP1s : Project := { projP1 with pkey := 1, timestamp := 0 }

/-- Spec §8 scenario: the cell `"top"` of P1. -/
def cellTop : Cell := { cell_id := "top", project_pkey := 1 }

/-- `cellTop` as stored (primary key 2). -/
def cellTops : Cell := { cellTop with pkey := 2, timestamp := 1 }

/-- Spec §8 scenario: the cell `"leaf"` of P1. -/
def cellLeaf : Cell := { cell_id := "leaf", project_pkey := 1 }

/-- `cellLeaf` as stored (primary key 3). -/
def cellLeafs : Cell := { cellLeaf with pkey := 3, timestamp := 2 }

/-- Spec §8 scenario: device `"inst0"` owned by cell `"leaf"`, placed into
parent cell `"top"` at `(x=10, y=20, angle=90, mirror=false)`. -/
def inst0 : Device :=
  { cell_pkey := 3, device_id := "inst0", x := some 10, y := some 20,
    angle := some 90, mirror := some false, parent_cell_pkey := some 2 }

/-- `inst0` as stored (primary key 4). -/
def inst0s : Device := { inst0 with pkey := 4, timestamp := 3 }

/-- A second device with the same placement tuple as `inst0`. -/
def inst1 : Device := { inst0 with device_id := "inst1" }

/-- The store after inserting `projP1`. -/
def store1 : Store := { projects := [projP1s], nextPkey := 2, clock := 1 }

/-- The store after also inserting `cellTop`. -/
def store2 : Store :=
  { store1 with cells := [cellTops], nextPkey := 3, clock := 2 }

/-- The store after also inserting `cellLeaf`. -/
def store3 : Store :=
  { store2 with cells := [cellTops, cellLeafs], nextPkey := 4, clock := 3 }

/-- The store after also inserting `inst0`. -/
def store4 : Store :=
  { store3 with devices := [inst0s], nextPkey := 5, clock := 4 }

/-- Spec §8 scenario: analysis function `("iv_curve", version=1, hash="abc")`
targeting device data, as stored (primary key 1). -/
def afRow : AnalysisFunction :=
  { pkey := 1, timestamp := 0, analysis_function_id := "iv_curve",
    version := 1, hash := "abc", function_path := "fn.py",
    target_model := .device_data, test_target_model_pkey := 1 }

/-- A registry holding `afRow`. -/
def storeA1 : Store :=
  { analysis_functions := [afRow], nextPkey := 2, clock := 1 }

/-- A device-data row carrying no device reference (possible because the
`device_pkey` column is created with `nullable=True`). -/
def ddRow : DeviceData :=
  { data_type := .measurement, path := "m.h5", device_pkey := none }

/-- `ddRow` as stored (primary key 2). -/
def ddRows : DeviceData := { ddRow with pkey := 2, timestamp := 1 }

/-- The store holding `afRow` and `ddRows`. -/
def storeA2 : Store :=
  { storeA1 with device_data := [ddRows], nextPkey := 3, clock := 2 }

/-- An analysis of `ddRows` by `afRow`. -/
def anRow : Analysis :=
  { parameters := Json.obj [], output := Json.obj [],
    summary_plot := "s.png", input_hash := "ih",
    device_data_pkey := some 2, analysis_function_pkey := 1 }

/-- `anRow` as stored (primary key 3). -/
def anRows : Analysis := { anRow with pkey := 3, timestamp := 2 }

/-- The store holding `afRow`, `ddRows` and `anRows`. -/
def storeA3 : Store :=
  { storeA2 with analyses := [anRows], nextPkey := 4, clock := 3 }

/-- An `Analysis` candidate with two target references set. -/
def analysisTwoTargets : Analysis :=
  { parameters := Json.obj [], output := Json.obj [], summary_plot := "plot",
    input_hash := "h0", die_pkey := some 1, wafer_pkey := some 1,
    analysis_function_pkey := 1 }

/-- An `Analysis` candidate with no target reference set. -/
def analysisNoTargets : Analysis :=
  { parameters := Json.obj [], output := Json.obj [], summary_plot := "plot",
    input_hash := "h0", analysis_function_pkey := 1 }

/-- Parameters for the idempotent re-run example. -/
def idemParams : Json := Json.obj [("temp", Json.num 25)]

/-- A latest analysis row whose stored `input_hash` equals the hash that a
re-run with `idemParams` and target state `"state0"` computes. -/
def idemRow : Analysis :=
  { pkey := 3, timestamp := 2, parameters := idemParams,
    output := Json.obj [], summary_plot := "plot.png",
    input_hash := inputHash idemParams "state0",
    device_data_pkey := some 2, analysis_function_pkey := 1 }

/-- The store holding `afRow`, `ddRows` and `idemRow`. -/
def idemStore : Store :=
  { storeA2 with analyses := [idemRow], nextPkey := 4, clock := 3 }

/-- A `record_result` call against `ddRows` by `afRow`. -/
def callA : RecordCall :=
  { fpkey := 1, target := .deviceData 2, parameters := Json.obj [],
    output := Json.obj [], summary_plot := "p.png", targetState := "st" }

/-- Same pair as `callA`, different parameters. -/
def callB : RecordCall :=
  { callA with parameters := Json.obj [("temp", Json.num 25)] }

/-- A nested attribute mapping used to exercise the attribute round-trip. -/
def nestedAttrs : Json :=
  Json.obj [("meta", Json.obj [("tags", Json.arr [Json.str "a", Json.num 1]),
    ("depth", Json.obj [("level", Json.num 2)])]), ("ok", Json.bool true)]

/-- A cell carrying `nestedAttrs`. -/
def cellN : Cell :=
  { cell_id := "attrcell", project_pkey := 1, attributes := nestedAttrs }

/-- `cellN` as stored by `insertCell store1 cellN` (primary key 2). -/
def cellNs : Cell := { cellN with pkey := 2, timestamp := 1 }

/-- The store after inserting `cellN` into `store1`. -/
def storeN : Store :=
  { store1 with cells := [cellNs], nextPkey := 3, clock := 2 }

theorem pos_of_any {α : Type} {l : List α} {get : α → Nat} {p : Nat}
    (h : l.any (fun d => get d == p) = true)
    (hpos : ∀ d ∈ l, decide (1 ≤ get d) = true) : 1 ≤ p := by
  obtain ⟨d, hd, hbeq⟩ := List.any_eq_true.mp h
  have h1 := hpos d hd
  have h2 : get d = p := by simpa using hbeq
  simp only [decide_eq_true_eq] at h1
  omega

theorem storeInv_insertProject {s s' : Store} {r r' : Project}
    (hs : storeInv s = true) (h : insertProject s r = .ok (s', r')) :
    storeInv s' = true := by
  unfold insertProject at h
  split at h
  · exact Except.noConfusion h
  · simp only [Except.ok.injEq, Prod.mk.injEq] at h
    obtain ⟨rfl, rfl⟩ := h
    simp only [storeInv, Bool.and_eq_true, decide_eq_true_eq] at hs ⊢
    obtain ⟨⟨⟨⟨⟨h1, h2⟩, h3⟩, h4⟩, h5⟩, h6⟩ := hs
    exact ⟨⟨⟨⟨⟨by omega, h2⟩, h3⟩, h4⟩, h5⟩, h6⟩

theorem posRef_of_fkAny {α : Type} {l : List α} {get : α → Nat}
    {v : Option Nat}
    (hfk : (match v with
            | none => true
            | some p => l.any (fun d => get d == p)) = true)
    (hpos : l.all (fun d => decide (1 ≤ get d)) = true) : posRef v = true := by
  cases v with
  | none => rfl
  | some p =>
    simp only [posRef, decide_eq_true_eq]
    exact pos_of_any hfk (List.all_eq_true.mp hpos)

theorem storeInv_insertCell {s s' : Store} {r r' : Cell}
    (hs : storeInv s = true) (h : insertCell s r = .ok (s', r')) :
    storeInv s' = true := by
  unfold insertCell at h
  split at h
  · split at h
    · exact Except.noConfusion h
    · simp only [Except.ok.injEq, Prod.mk.injEq] at h
      obtain ⟨rfl, rfl⟩ := h
      simp only [storeInv, Bool.and_eq_true, decide_eq_true_eq] at hs ⊢
      obtain ⟨⟨⟨⟨⟨h1, h2⟩, h3⟩, h4⟩, h5⟩, h6⟩ := hs
      exact ⟨⟨⟨⟨⟨by omega, h2⟩, h3⟩, h4⟩, h5⟩, h6⟩
  · exact Except.noConfusion h

theorem storeInv_insertDevice {s s' : Store} {r r' : Device}
    (hs : storeInv s = true) (h : insertDevice s r = .ok (s', r')) :
    storeInv s' = true := by
  unfold insertDevice at h
  split at h
  next hchk =>
    split at h
    next hfk =>
      split at h
      next hconf => exact Except.noConfusion h
      next hconf =>
        simp only [Except.ok.injEq, Prod.mk.injEq] at h
        obtain ⟨rfl, rfl⟩ := h
        simp only [storeInv, Bool.and_eq_true, decide_eq_true_eq,
          List.all_append, List.all_cons, List.all_nil] at hs ⊢
        obtain ⟨⟨⟨⟨⟨h1, h2⟩, h3⟩, h4⟩, h5⟩, h6⟩ := hs
        simp only [Bool.and_eq_true] at hchk
        exact ⟨⟨⟨⟨⟨by omega, h2⟩, ⟨h3, ⟨hchk.1, hchk.2⟩, trivial⟩⟩, h4⟩,
          h5⟩, h6⟩
    next hfk => exact Except.noConfusion h
  next hchk => exact Except.noConfusion h

theorem storeInv_insertWafer {s s' : Store} {r r' : Wafer}
    (hs : storeInv s = true) (h : insertWafer s r = .ok (s', r')) :
    storeInv s' = true := by
  unfold insertWafer at h
  split at h
  · split at h
    · exact Except.noConfusion h
    · simp only [Except.ok.injEq, Prod.mk.injEq] at h
      obtain ⟨rfl, rfl⟩ := h
      simp only [storeInv, Bool.and_eq_true, decide_eq_true_eq,
        List.all_append, List.all_cons, List.all_nil] at hs ⊢
      obtain ⟨⟨⟨⟨⟨h1, h2⟩, h3⟩, h4⟩, h5⟩, h6⟩ := hs
      exact ⟨⟨⟨⟨⟨by omega, h2⟩, h3⟩, h4⟩, h5⟩, h6, ⟨by omega, trivial⟩⟩
  · exact Except.noConfusion h

theorem storeInv_insertDie {s s' : Store} {r r' : Die}
    (hs : storeInv s = true) (h : insertDie s r = .ok (s', r')) :
    storeInv s' = true := by
  unfold insertDie at h
  split at h
  · split at h
    · exact Except.noConfusion h
    · simp only [Except.ok.injEq, Prod.mk.injEq] at h
      obtain ⟨rfl, rfl⟩ := h
      simp only [storeInv, Bool.and_eq_true, decide_eq_true_eq,
        List.all_append, List.all_cons, List.all_nil] at hs ⊢
      obtain ⟨⟨⟨⟨⟨h1, h2⟩, h3⟩, h4⟩, h5⟩, h6⟩ := hs
      exact ⟨⟨⟨⟨⟨by omega, h2⟩, h3⟩, h4⟩, h5, ⟨by omega, trivial⟩⟩, h6⟩
  · exact Except.noConfusion h

theorem storeInv_insertDeviceData {s s' : Store} {r r' : DeviceData}
    (hs : storeInv s = true) (h : insertDeviceData s r = .ok (s', r')) :
    storeInv s' = true := by
  unfold insertDeviceData at h
  split at h
  · simp only [Except.ok.injEq, Prod.mk.injEq] at h
    obtain ⟨rfl, rfl⟩ := h
    simp only [storeInv, Bool.and_eq_true, decide_eq_true_eq,
      List.all_append, List.all_cons, List.all_nil] at hs ⊢
    obtain ⟨⟨⟨⟨⟨h1, h2⟩, h3⟩, h4⟩, h5⟩, h6⟩ := hs
    exact ⟨⟨⟨⟨⟨by omega, h2⟩, h3⟩, ⟨h4, ⟨by omega, trivial⟩⟩⟩, h5⟩, h6⟩
  · exact Except.noConfusion h

theorem storeInv_register {s s' : Store} {fid h path : String} {v tp : Nat}
    {tm : AnalysisFunctionTargetModel} {r' : AnalysisFunction}
    (hs : storeInv s = true)
    (hop : register s fid v h path tm tp = .ok (s', r')) :
    storeInv s' = true := by
  unfold register at hop
  split at hop
  · exact Except.noConfusion hop
  · simp only [Except.ok.injEq, Prod.mk.injEq] at hop
    obtain ⟨rfl, rfl⟩ := hop
    simp only [storeInv, Bool.and_eq_true, decide_eq_true_eq] at hs ⊢
    obtain ⟨⟨⟨⟨⟨h1, h2⟩, h3⟩, h4⟩, h5⟩, h6⟩ := hs
    exact ⟨⟨⟨⟨⟨by omega, h2⟩, h3⟩, h4⟩, h5⟩, h6⟩

theorem storeInv_insertAnalysis {s s' : Store} {r r' : Analysis}
    (hs : storeInv s = true) (h : insertAnalysis s r = .ok (s', r')) :
    storeInv s' = true := by
  unfold insertAnalysis at h
  split at h
  next hxor =>
    split at h
    next hfk =>
      simp only [Except.ok.injEq, Prod.mk.injEq] at h
      obtain ⟨rfl, rfl⟩ := h
      simp only [Bool.and_eq_true] at hfk
      obtain ⟨⟨⟨hffk, hdd⟩, hdie⟩, hwaf⟩ := hfk
      simp only [storeInv, Bool.and_eq_true, decide_eq_true_eq,
        List.all_append, List.all_cons, List.all_nil] at hs ⊢
      obtain ⟨⟨⟨⟨⟨h1, h2⟩, h3⟩, h4⟩, h5⟩, h6⟩ := hs
      refine ⟨⟨⟨⟨⟨by omega, h2, ⟨?_, trivial⟩⟩, h3⟩, h4⟩, h5⟩, h6⟩
      exact ⟨⟨⟨hxor, posRef_of_fkAny hdd h4⟩, posRef_of_fkAny hdie h5⟩,
        posRef_of_fkAny hwaf h6⟩
    next hfk => exact Except.noConfusion h
  next hxor => exact Except.noConfusion h

theorem storeInv_recordNew {s s' : Store} {fpkey : Nat} {t : AnalysisTarget}
    {p o : Json} {sp hh : String} {r' : Analysis}
    (hs : storeInv s = true)
    (hrec : recordNew s fpkey t p o sp hh = .ok (s', r')) :
    storeInv s' = true := by
  unfold recordNew at hrec
  split at hrec
  · exact Except.noConfusion hrec
  next f hf =>
    split at hrec
    next htm =>
      split at hrec
      next hex =>
        simp only [Except.ok.injEq, Prod.mk.injEq] at hrec
        obtain ⟨rfl, rfl⟩ := hrec
        simp only [storeInv, Bool.and_eq_true, decide_eq_true_eq,
          List.all_append, List.all_cons, List.all_nil] at hs ⊢
        obtain ⟨⟨⟨⟨⟨h1, h2⟩, h3⟩, h4⟩, h5⟩, h6⟩ := hs
        refine ⟨⟨⟨⟨⟨by omega, ?_, ⟨?_, trivial⟩⟩, h3⟩, h4⟩, h5⟩, h6⟩
        · rw [List.all_eq_true]
          intro b hb
          obtain ⟨a, ha, rfl⟩ := List.mem_map.mp hb
          have hpa := List.all_eq_true.mp h2 a ha
          unfold demote
          split
          · exact hpa
          · exact hpa
        · cases t with
          | deviceData pk =>
            simp only [newAnalysisRow, AnalysisTarget.refs, Bool.and_eq_true]
            refine ⟨⟨⟨rfl, ?_⟩, rfl⟩, rfl⟩
            simp only [posRef, decide_eq_true_eq]
            exact pos_of_any hex (List.all_eq_true.mp h4)
          | die pk =>
            simp only [newAnalysisRow, AnalysisTarget.refs, Bool.and_eq_true]
            refine ⟨⟨⟨rfl, rfl⟩, ?_⟩, rfl⟩
            simp only [posRef, decide_eq_true_eq]
            exact pos_of_any hex (List.all_eq_true.mp h5)
          | wafer pk =>
            simp only [newAnalysisRow, AnalysisTarget.refs, Bool.and_eq_true]
            refine ⟨⟨⟨rfl, rfl⟩, rfl⟩, ?_⟩
            simp only [posRef, decide_eq_true_eq]
            exact pos_of_any hex (List.all_eq_true.mp h6)
      next hex => exact Except.noConfusion hrec
    next htm => exact Except.noConfusion hrec

theorem storeInv_record_result {s s' : Store} {fpkey : Nat}
    {t : AnalysisTarget} {p o : Json} {sp ts : String} {r' : Analysis}
    (hs : storeInv s = true)
    (h : record_result s fpkey t p o sp ts = .ok (s', r')) :
    storeInv s' = true := by
  unfold record_result at h
  split at h
  next a ha =>
    split at h
    · simp only [Except.ok.injEq, Prod.mk.injEq] at h
      obtain ⟨rfl, rfl⟩ := h
      exact hs
    · exact storeInv_recordNew hs h
  next ha => exact storeInv_recordNew hs h

/-- Every reachable store satisfies the structural invariant. -/
theorem reachable_storeInv {s : Store} (h : Reachable s) :
    storeInv s = true := by
  induction h with
  | empty => rfl
  | project _ hop ih => exact storeInv_insertProject ih hop
  | cell _ hop ih => exact storeInv_insertCell ih hop
  | device _ hop ih => exact storeInv_insertDevice ih hop
  | wafer _ hop ih => exact storeInv_insertWafer ih hop
  | die _ hop ih => exact storeInv_insertDie ih hop
  | deviceData _ hop ih => exact storeInv_insertDeviceData ih hop
  | registerFn _ hop ih => exact storeInv_register ih hop
  | analysis _ hop ih => exact storeInv_insertAnalysis ih hop
  | result _ hop ih => exact storeInv_record_result ih hop

/-- Every `Analysis` row of a reachable store satisfies the XOR CHECK
constraint and only references rows with positive primary keys. -/
theorem reachable_analysis_props {s : Store} (hs : Reachable s) {a : Analysis}
    (ha : a ∈ s.analyses) :
    analysis_pkeys_xor_constraint a = true ∧ posRef a.device_data_pkey = true
      ∧ posRef a.die_pkey = true ∧ posRef a.wafer_pkey = true := by
  have h := reachable_storeInv hs
  simp only [storeInv, Bool.and_eq_true] at h
  have h2 := List.all_eq_true.mp h.1.1.1.1.2 a ha
  simp only [Bool.and_eq_true] at h2
  exact ⟨h2.1.1.1, h2.1.1.2, h2.1.2, h2.2⟩

/-- Every `Device` row of a reachable store satisfies the two CHECK
constraints of the `Device` table. -/
theorem reachable_device_props {s : Store} (hs : Reachable s) {d : Device}
    (hd : d ∈ s.devices) :
    unique_device_cell_references d = true
      ∧ parent_cell_coordinate_reference_not_null d = true := by
  have h := reachable_storeInv hs
  simp only [storeInv, Bool.and_eq_true] at h
  have h3 := List.all_eq_true.mp h.1.1.1.2 d hd
  simp only [Bool.and_eq_true] at h3
  exact h3

theorem refs_injective {t t' : AnalysisTarget} (h : t.refs = t'.refs) :
    t = t' := by
  cases t <;> cases t' <;> simp_all [AnalysisTarget.refs]

theorem eq_of_targetMatches {t t' : AnalysisTarget} {a : Analysis}
    (h1 : targetMatches t a = true) (h2 : targetMatches t' a = true) :
    t = t' := by
  simp only [targetMatches, decide_eq_true_eq] at h1 h2
  exact refs_injective (h1 ▸ h2)

theorem countP_map_eq {α : Type} {l : List α} {f : α → α} {p : α → Bool}
    (h : ∀ a ∈ l, p (f a) = p a) : (l.map f).countP p = l.countP p := by
  induction l with
  | nil => rfl
  | cons a l ih =>
    simp only [List.map_cons, List.countP_cons, h a (by simp)]
    rw [ih (fun b hb => h b (by simp [hb]))]

theorem recordNew_ok {s s' : Store} {fpkey : Nat} {t : AnalysisTarget}
    {p o : Json} {sp hh : String} {r' : Analysis}
    (h : recordNew s fpkey t p o sp hh = .ok (s', r')) :
    r' = newAnalysisRow s fpkey t p o sp hh
      ∧ s'.analyses = s.analyses.map (demote fpkey t) ++ [r'] := by
  unfold recordNew at h
  split at h
  · exact Except.noConfusion h
  · split at h
    · split at h
      · simp only [Except.ok.injEq, Prod.mk.injEq] at h
        obtain ⟨rfl, rfl⟩ := h
        exact ⟨rfl, rfl⟩
      · exact Except.noConfusion h
    · exact Except.noConfusion h

theorem isLatestFor_demote_self (fpkey : Nat) (t : AnalysisTarget)
    (a : Analysis) : isLatestFor fpkey t (demote fpkey t a) = false := by
  unfold demote
  split
  next hc => simp [isLatestFor]
  next hc =>
    have hc' : (a.analysis_function_pkey == fpkey && targetMatches t a)
        = false := Bool.eq_false_iff.mpr hc
    simp only [isLatestFor, hc', Bool.false_and]

theorem isLatestFor_demote_other {fpkey f' : Nat} {t t' : AnalysisTarget}
    (hne : ¬(f' = fpkey ∧ t' = t)) (a : Analysis) :
    isLatestFor f' t' (demote fpkey t a) = isLatestFor f' t' a := by
  unfold demote
  split
  next hc =>
    simp only [Bool.and_eq_true, beq_iff_eq] at hc
    have h1 : isLatestFor f' t' { a with is_latest := false } = false := by
      simp [isLatestFor]
    cases hl : isLatestFor f' t' a
    · exact h1
    · exfalso
      simp only [isLatestFor, Bool.and_eq_true, beq_iff_eq] at hl
      obtain ⟨⟨hfn', htm'⟩, -⟩ := hl
      refine hne ⟨?_, eq_of_targetMatches htm' hc.2⟩
      omega
  next hc => rfl

theorem isLatestFor_newRow_self (s : Store) (fpkey : Nat)
    (t : AnalysisTarget) (p o : Json) (sp hh : String) :
    isLatestFor fpkey t (newAnalysisRow s fpkey t p o sp hh) = true := by
  cases t <;>
    simp [isLatestFor, newAnalysisRow, targetMatches, AnalysisTarget.refs]

theorem isLatestFor_newRow_other {s : Store} {fpkey f' : Nat}
    {t t' : AnalysisTarget} {p o : Json} {sp hh : String}
    (hne : ¬(f' = fpkey ∧ t' = t)) :
    isLatestFor f' t' (newAnalysisRow s fpkey t p o sp hh) = false := by
  cases hl : isLatestFor f' t' (newAnalysisRow s fpkey t p o sp hh)
  · rfl
  · exfalso
    simp only [isLatestFor, Bool.and_eq_true, beq_iff_eq] at hl
    obtain ⟨⟨hfn', htm'⟩, -⟩ := hl
    have hf'eq : f' = fpkey := by
      have h2 : fpkey = f' := hfn'
      omega
    have htm : targetMatches t (newAnalysisRow s fpkey t p o sp hh) = true :=
      by cases t <;> simp [targetMatches, newAnalysisRow, AnalysisTarget.refs]
    exact hne ⟨hf'eq, eq_of_targetMatches htm' htm⟩

theorem latestCount_recordNew {s s' : Store} {fpkey : Nat}
    {t : AnalysisTarget} {p o : Json} {sp hh : String} {r' : Analysis}
    (h : recordNew s fpkey t p o sp hh = .ok (s', r')) :
    latestCount s' fpkey t = 1
      ∧ ∀ f' t', ¬(f' = fpkey ∧ t' = t) →
          latestCount s' f' t' = latestCount s f' t' := by
  obtain ⟨rfl, hs'⟩ := recordNew_ok h
  constructor
  · unfold latestCount
    rw [hs', List.countP_append]
    have hz : (s.analyses.map (demote fpkey t)).countP
        (isLatestFor fpkey t) = 0 := by
      rw [List.countP_eq_zero]
      intro b hb
      obtain ⟨a, _, rfl⟩ := List.mem_map.mp hb
      simp [isLatestFor_demote_self]
    rw [hz]
    simp [List.countP_cons, isLatestFor_newRow_self]
  · intro f' t' hne
    unfold latestCount
    rw [hs', List.countP_append]
    rw [countP_map_eq (fun a _ => isLatestFor_demote_other hne a)]
    simp [List.countP_cons, isLatestFor_newRow_other hne]

theorem recordNew_retains {s s' : Store} {fpkey : Nat} {t : AnalysisTarget}
    {p o : Json} {sp hh : String} {r' : Analysis}
    (h : recordNew s fpkey t p o sp hh = .ok (s', r')) :
    ∀ a ∈ s.analyses, a ∈ s'.analyses
      ∨ { a with is_latest := false } ∈ s'.analyses := by
  intro a ha
  obtain ⟨-, hs'⟩ := recordNew_ok h
  rw [hs']
  have hmem : demote fpkey t a ∈ s.analyses.map (demote fpkey t) :=
    List.mem_map.mpr ⟨a, ha, rfl⟩
  unfold demote at hmem
  split at hmem
  · exact Or.inr (List.mem_append_left _ hmem)
  · exact Or.inl (List.mem_append_left _ hmem)

theorem atMostOneLatest_record_result {s s' : Store} {fpkey : Nat}
    {t : AnalysisTarget} {p o : Json} {sp ts : String} {r' : Analysis}
    (hinv : atMostOneLatest s)
    (h : record_result s fpkey t p o sp ts = .ok (s', r')) :
    atMostOneLatest s' := by
  have hrec : s' = s ∨
      recordNew s fpkey t p o sp (inputHash p ts) = .ok (s', r') := by
    unfold record_result at h
    split at h
    · split at h
      · simp only [Except.ok.injEq, Prod.mk.injEq] at h
        exact Or.inl h.1.symm
      · exact Or.inr h
    · exact Or.inr h
  cases hrec with
  | inl he => exact he ▸ hinv
  | inr hrec =>
    intro f' t'
    obtain ⟨hself, hother⟩ := latestCount_recordNew hrec
    by_cases hp : f' = fpkey ∧ t' = t
    · obtain ⟨rfl, rfl⟩ := hp
      omega
    · rw [hother f' t' hp]
      exact hinv f' t'

theorem record_result_retains {s s' : Store} {fpkey : Nat}
    {t : AnalysisTarget} {p o : Json} {sp ts : String} {r' : Analysis}
    (h : record_result s fpkey t p o sp ts = .ok (s', r')) :
    ∀ a ∈ s.analyses, a ∈ s'.analyses
      ∨ { a with is_latest := false } ∈ s'.analyses := by
  have hrec : s' = s ∨
      recordNew s fpkey t p o sp (inputHash p ts) = .ok (s', r') := by
    unfold record_result at h
    split at h
    · split at h
      · simp only [Except.ok.injEq, Prod.mk.injEq] at h
        exact Or.inl h.1.symm
      · exact Or.inr h
    · exact Or.inr h
  cases hrec with
  | inl he => exact fun a ha => Or.inl (he ▸ ha)
  | inr hrec => exact recordNew_retains hrec

theorem atMostOneLatest_applyCall {s : Store} {c : RecordCall}
    (h : atMostOneLatest s) : atMostOneLatest (applyCall s c) := by
  unfold applyCall
  split
  next s' r' hrr => exact atMostOneLatest_record_result h hrr
  next e hrr => exact h

theorem applyCall_retains (s : Store) (c : RecordCall) :
    ∀ a ∈ s.analyses, a ∈ (applyCall s c).analyses
      ∨ { a with is_latest := false } ∈ (applyCall s c).analyses := by
  unfold applyCall
  split
  next s' r' hrr => exact record_result_retains hrr
  next e hrr => exact fun a ha => Or.inl ha

theorem analysisId_cases {a : Analysis} (f : AnalysisFunction)
    (hxor : analysis_pkeys_xor_constraint a = true)
    (hdd : posRef a.device_data_pkey = true)
    (hdie : posRef a.die_pkey = true)
    (hwaf : posRef a.wafer_pkey = true) :
    (∀ p, a.device_data_pkey = some p → a.analysis_id f
        = some (f.analysis_function_id ++ " on Device Data #" ++ toString p))
    ∧ (∀ p, a.die_pkey = some p → a.analysis_id f
        = some (f.analysis_function_id ++ " on Die #" ++ toString p))
    ∧ (∀ p, a.wafer_pkey = some p → a.analysis_id f
        = some (f.analysis_function_id ++ " on Wafer #" ++ toString p))
    ∧ (a.analysis_id f).isSome = true := by
  rcases h1 : a.device_data_pkey with - | p1 <;>
    rcases h2 : a.die_pkey with - | p2 <;>
    rcases h3 : a.wafer_pkey with - | p3 <;>
    simp only [analysis_pkeys_xor_constraint, h1, h2, h3] at hxor <;>
    simp at hxor
  · rw [h3] at hwaf
    simp only [posRef, decide_eq_true_eq] at hwaf
    have hp3 : ¬ p3 = 0 := by omega
    have hmain : a.analysis_id f
        = some (f.analysis_function_id ++ " on "
            ++ ("Wafer" ++ " #" ++ toString p3)) := by
      simp only [Analysis.analysis_id, Analysis.targetLabels, h1, h2, h3]
      simp [hp3]
    refine ⟨?_, ?_, ?_, ?_⟩
    · intro p hp
      exact Option.noConfusion hp
    · intro p hp
      exact Option.noConfusion hp
    · intro p hp
      injection hp with hpe
      subst hpe
      rw [hmain]
      simp only [String.append_assoc]
      rfl
    · rw [hmain]
      rfl
  · rw [h2] at hdie
    simp only [posRef, decide_eq_true_eq] at hdie
    have hp2 : ¬ p2 = 0 := by omega
    have hmain : a.analysis_id f
        = some (f.analysis_function_id ++ " on "
            ++ ("Die" ++ " #" ++ toString p2)) := by
      simp only [Analysis.analysis_id, Analysis.targetLabels, h1, h2, h3]
      simp [hp2]
    refine ⟨?_, ?_, ?_, ?_⟩
    · intro p hp
      exact Option.noConfusion hp
    · intro p hp
      injection hp with hpe
      subst hpe
      rw [hmain]
      simp only [String.append_assoc]
      rfl
    · intro p hp
      exact Option.noConfusion hp
    · rw [hmain]
      rfl
  · rw [h1] at hdd
    simp only [posRef, decide_eq_true_eq] at hdd
    have hp1 : ¬ p1 = 0 := by omega
    have hmain : a.analysis_id f
        = some (f.analysis_function_id ++ " on "
            ++ ("Device Data" ++ " #" ++ toString p1)) := by
      simp only [Analysis.analysis_id, Analysis.targetLabels, h1, h2, h3]
      simp [hp1]
    refine ⟨?_, ?_, ?_, ?_⟩
    · intro p hp
      injection hp with hpe
      subst hpe
      rw [hmain]
      simp only [String.append_assoc]
      rfl
    · intro p hp
      exact Option.noConfusion hp
    · intro p hp
      exact Option.noConfusion hp
    · rw [hmain]
      rfl

theorem atMostOneLatest_applyCalls {s : Store} {cs : List RecordCall}
    (h : atMostOneLatest s) : atMostOneLatest (applyCalls s cs) := by
  induction cs generalizing s with
  | nil => exact h
  | cons c cs ih => exact ih (atMostOneLatest_applyCall h)

theorem applyCalls_retains (s : Store) (cs : List RecordCall) :
    ∀ a ∈ s.analyses, a ∈ (applyCalls s cs).analyses
      ∨ { a with is_latest := false } ∈ (applyCalls s cs).analyses := by
  induction cs generalizing s with
  | nil => exact fun a ha => Or.inl ha
  | cons c cs ih =>
    intro a ha
    cases applyCall_retains s c a ha with
    | inl h2 => exact ih (applyCall s c) a h2
    | inr h2 =>
      cases ih (applyCall s c) _ h2 with
      | inl h4 => exact Or.inr h4
      | inr h4 => exact Or.inr h4

/-- The spec §8 device scenario store is reachable. -/
theorem reachable_store4 : Reachable store4 := by
  have h1 : insertProject emptyStore projP1 = .ok (store1, projP1s) := rfl
  have h2 : insertCell store1 cellTop = .ok (store2, cellTops) := rfl
  have h3 : insertCell store2 cellLeaf = .ok (store3, cellLeafs) := rfl
  have h4 : insertDevice store3 inst0 = .ok (store4, inst0s) := rfl
  exact Reachable.device (Reachable.cell (Reachable.cell
    (Reachable.project Reachable.empty h1) h2) h3) h4

/-- The registry store holding `afRow` is reachable. -/
theorem reachable_storeA1 : Reachable storeA1 := by
  have h : register emptyStore "iv_curve" 1 "abc" "fn.py" .device_data 1
      = .ok (storeA1, afRow) := rfl
  exact Reachable.registerFn Reachable.empty h

/-- The store holding the device-less `ddRows` is reachable. -/
theorem reachable_storeA2 : Reachable storeA2 := by
  have h : insertDeviceData storeA1 ddRow = .ok (storeA2, ddRows) := rfl
  exact Reachable.deviceData reachable_storeA1 h

/-- The store holding the analysis `anRows` is reachable. -/
theorem reachable_storeA3 : Reachable storeA3 := by
  have h : insertAnalysis storeA2 anRow = .ok (storeA3, anRows) := rfl
  exact Reachable.analysis reachable_storeA2 h

/-- C1: in every reachable store, every `Analysis` row satisfies the XOR
target constraint (exactly one of the three target references non-null);
attempting to create an `Analysis` with two of them set (die and wafer) is
rejected as a `ConstraintViolation`, as is one with all three null. -/
theorem analysis_xor_enforced (s : Store) (hs : Reachable s) :
    (∀ a ∈ s.analyses, analysis_pkeys_xor_constraint a = true)
    ∧ (∀ r : Analysis, r.die_pkey.isSome = true → r.wafer_pkey.isSome = true →
        insertAnalysis s r = .error .constraintViolation)
    ∧ (∀ r : Analysis, r.device_data_pkey = none → r.die_pkey = none →
        r.wafer_pkey = none →
        insertAnalysis s r = .error .constraintViolation) := by
  refine ⟨fun a ha => (reachable_analysis_props hs ha).1, ?_, ?_⟩
  · intro r hdie hwaf
    have hfalse : analysis_pkeys_xor_constraint r = false := by
      cases hdd : r.device_data_pkey.isSome <;>
        simp [analysis_pkeys_xor_constraint, hdd, hdie, hwaf]
    unfold insertAnalysis
    rw [hfalse]
    rfl
  · intro r h1 h2 h3
    have hfalse : analysis_pkeys_xor_constraint r = false := by
      simp [analysis_pkeys_xor_constraint, h1, h2, h3]
    unfold insertAnalysis
    rw [hfalse]
    rfl

theorem analysis_xor_enforced_witness :
    insertAnalysis emptyStore analysisTwoTargets
      = .error .constraintViolation
    ∧ insertAnalysis emptyStore analysisNoTargets
      = .error .constraintViolation :=
  ⟨(analysis_xor_enforced emptyStore Reachable.empty).2.1 analysisTwoTargets
      rfl rfl,
   (analysis_xor_enforced emptyStore Reachable.empty).2.2 analysisNoTargets
      rfl rfl rfl⟩

/-- C2: starting from a store with at most one latest Analysis per
`(analysis_function, target)` pair, after any sequence of `record_result`
calls (concurrent calls are serialized per spec §5) the store still has at
most one latest row per pair, and every pre-existing Analysis row is
retained, either unchanged or demoted to `is_latest = false`. -/
theorem record_result_latest_invariant (s : Store) (cs : List RecordCall)
    (hinv : atMostOneLatest s) :
    atMostOneLatest (applyCalls s cs)
    ∧ ∀ a ∈ s.analyses, a ∈ (applyCalls s cs).analyses
        ∨ { a with is_latest := false } ∈ (applyCalls s cs).analyses :=
  ⟨atMostOneLatest_applyCalls hinv, applyCalls_retains s cs⟩

theorem record_result_latest_invariant_witness :
    atMostOneLatest (applyCalls storeA2 [callA, callA, callB]) :=
  (record_result_latest_invariant storeA2 [callA, callA, callB]
    (fun _ _ => Nat.zero_le 1)).1

/-- C3: `record_result` is idempotent on unchanged input — when a latest
Analysis row for the `(function, target)` pair exists and its stored
`input_hash` equals the hash recomputed from the new parameters and the
unchanged target state, the call returns the existing row and the store
unchanged (no row inserted, no row modified). -/
theorem record_result_idempotent (s : Store) (fpkey : Nat)
    (t : AnalysisTarget) (p o : Json) (sp ts : String) (a : Analysis)
    (hfind : findLatest s fpkey t = some a)
    (hhash : a.input_hash = inputHash p ts) :
    record_result s fpkey t p o sp ts = .ok (s, a) := by
  unfold record_result
  rw [hfind]
  simp [hhash]

theorem record_result_idempotent_witness :
    record_result idemStore 1 (.deviceData 2) idemParams (Json.obj [])
      "plot.png" "state0" = .ok (idemStore, idemRow) :=
  record_result_idempotent idemStore 1 (.deviceData 2) idemParams
    (Json.obj []) "plot.png" "state0" idemRow rfl rfl

/-- C4: in every reachable store, a `Device` row has a non-null
`parent_cell_pkey` exactly when all four placement fields `x`, `y`, `angle`,
`mirror` are non-null; moreover the four placement fields are all null or
all non-null, so no Device can exist with the placement fields partially set
(some null, some non-null). -/
theorem device_placement_pairing (s : Store) (hs : Reachable s) :
    ∀ d ∈ s.devices,
      (d.parent_cell_pkey.isSome = true ↔
        (d.x.isSome = true ∧ d.y.isSome = true ∧ d.angle.isSome = true
          ∧ d.mirror.isSome = true))
      ∧ ((d.x.isNone = true ∧ d.y.isNone = true ∧ d.angle.isNone = true
            ∧ d.mirror.isNone = true)
        ∨ (d.x.isSome = true ∧ d.y.isSome = true ∧ d.angle.isSome = true
            ∧ d.mirror.isSome = true)) := by
  intro d hd
  have h := (reachable_device_props hs hd).2
  simp only [parent_cell_coordinate_reference_not_null, Bool.or_eq_true,
    Bool.and_eq_true] at h
  rcases h with ⟨⟨⟨⟨hp, hx⟩, hy⟩, ha⟩, hm⟩ | ⟨⟨⟨⟨hp, hx⟩, hy⟩, ha⟩, hm⟩
  · constructor
    · simp_all [Option.isNone_iff_eq_none]
    · exact Or.inl ⟨hx, hy, ha, hm⟩
  · constructor
    · simp_all
    · exact Or.inr ⟨hx, hy, ha, hm⟩

theorem device_placement_pairing_witness :
    (inst0s.parent_cell_pkey.isSome = true ↔
      (inst0s.x.isSome = true ∧ inst0s.y.isSome = true
        ∧ inst0s.angle.isSome = true ∧ inst0s.mirror.isSome = true))
    ∧ ((inst0s.x.isNone = true ∧ inst0s.y.isNone = true
          ∧ inst0s.angle.isNone = true ∧ inst0s.mirror.isNone = true)
      ∨ (inst0s.x.isSome = true ∧ inst0s.y.isSome = true
          ∧ inst0s.angle.isSome = true ∧ inst0s.mirror.isSome = true)) :=
  device_placement_pairing store4 reachable_store4 inst0s
    (List.mem_cons_self inst0s [])

/-- C6: `register` creates a new `AnalysisFunction` version record carrying
exactly the given `(function_id, version, hash, path, target_model)` when
the `(function_id, version)` pair is fresh, and fails with
`ConstraintViolation` (leaving the registry unchanged — no new store state
is produced) whenever a record with the same pair already exists. -/
theorem analysis_function_register_unique (s : Store) (fid : String)
    (v : Nat) (hsh fpath : String) (tm : AnalysisFunctionTargetModel)
    (tp : Nat) :
    (s.analysis_functions.any (fun f =>
        f.analysis_function_id == fid && f.version == v) = false →
      register s fid v hsh fpath tm tp
        = .ok ({ s with
            analysis_functions := s.analysis_functions
                ++ [{ pkey := s.nextPkey, timestamp := s.clock,
                      analysis_function_id := fid, version := v, hash := hsh,
                      function_path := fpath, target_model := tm,
                      test_target_model_pkey := tp }],
            nextPkey := s.nextPkey + 1, clock := s.clock + 1 },
          { pkey := s.nextPkey, timestamp := s.clock,
            analysis_function_id := fid, version := v, hash := hsh,
            function_path := fpath, target_model := tm,
            test_target_model_pkey := tp }))
    ∧ (s.analysis_functions.any (fun f =>
        f.analysis_function_id == fid && f.version == v) = true →
      register s fid v hsh fpath tm tp = .error .constraintViolation) := by
  constructor
  · intro hfresh
    unfold register
    rw [hfresh]
    rfl
  · intro hdup
    unfold register
    rw [hdup]
    rfl

theorem analysis_function_register_unique_witness :
    register storeA1 "iv_curve" 1 "zzz" "other.py" .die 2
      = .error .constraintViolation :=
  (analysis_function_register_unique storeA1 "iv_curve" 1 "zzz" "other.py"
    .die 2).2 rfl

/-- C9: the claim says every `DeviceData` row has a mandatory non-null
device reference; but the stored schema declares `device_pkey` with
`nullable=True`, so a `DeviceData` row with a NULL device reference is
accepted and a reachable store containing one exists — the code contradicts
its own non-optional `int` annotation on the field. -/
theorem device_data_null_device_accepted :
    insertDeviceData storeA1 ddRow = .ok (storeA2, ddRows)
    ∧ ddRows ∈ storeA2.device_data
    ∧ ddRows.device_pkey = none
    ∧ Reachable storeA2 :=
  ⟨rfl, List.mem_cons_self ddRows [], rfl, reachable_storeA2⟩

/-- C7: for an `Analysis` row of a reachable store (such rows satisfy the
XOR target invariant), the derived — never persisted — `analysis_id` is a
pure function of the row returning the analysis function id combined with
the label of the unique non-null target reference, of the form
`<analysis_function_id> on Device Data #<pkey>` / `... on Die #<pkey>` /
`... on Wafer #<pkey>`; being a function, reading it twice on the same row
yields the same string. -/
theorem analysis_id_projection (s : Store) (hs : Reachable s)
    (a : Analysis) (ha : a ∈ s.analyses) (f : AnalysisFunction) :
    (∀ p, a.device_data_pkey = some p → a.analysis_id f
        = some (f.analysis_function_id ++ " on Device Data #" ++ toString p))
    ∧ (∀ p, a.die_pkey = some p → a.analysis_id f
        = some (f.analysis_function_id ++ " on Die #" ++ toString p))
    ∧ (∀ p, a.wafer_pkey = some p → a.analysis_id f
        = some (f.analysis_function_id ++ " on Wafer #" ++ toString p)) := by
  obtain ⟨hxor, hdd, hdie, hwaf⟩ := reachable_analysis_props hs ha
  obtain ⟨c1, c2, c3, -⟩ := analysisId_cases f hxor hdd hdie hwaf
  exact ⟨c1, c2, c3⟩

theorem analysis_id_projection_witness :
    Analysis.analysis_id anRows afRow = some "iv_curve on Device Data #2" :=
  (analysis_id_projection storeA3 reachable_storeA3 anRows
    (List.mem_cons_self anRows []) afRow).1 2 rfl

/-- C10: the `analysis_id` computation indexes `[0]` into the list of truthy
target labels, so on a row with all three target references null it fails
(the embedded computation returns `none`, modelling the `IndexError`); for
rows of a reachable store, where the XOR invariant holds (and referenced
primary keys are positive), the computation always produces a string. -/
theorem analysis_id_partiality (s : Store) (hs : Reachable s)
    (a : Analysis) (ha : a ∈ s.analyses) (f : AnalysisFunction) :
    (∀ b : Analysis, b.device_data_pkey = none → b.die_pkey = none →
        b.wafer_pkey = none → b.analysis_id f = none)
    ∧ (a.analysis_id f).isSome = true := by
  constructor
  · intro b h1 h2 h3
    simp only [Analysis.analysis_id, Analysis.targetLabels, h1, h2, h3]
    rfl
  · obtain ⟨hxor, hdd, hdie, hwaf⟩ := reachable_analysis_props hs ha
    exact (analysisId_cases f hxor hdd hdie hwaf).2.2.2

theorem analysis_id_partiality_witness :
    Analysis.analysis_id analysisNoTargets afRow = none
    ∧ (Analysis.analysis_id anRows afRow).isSome = true :=
  ⟨(analysis_id_partiality storeA3 reachable_storeA3 anRows
      (List.mem_cons_self anRows []) afRow).1 analysisNoTargets rfl rfl rfl,
   (analysis_id_partiality storeA3 reachable_storeA3 anRows
      (List.mem_cons_self anRows []) afRow).2⟩

/-- C8: every attribute-carrying entity (Cell, Device, Wafer, Die,
DeviceData, Analysis) stores a JSON value, so arbitrarily nested string-keyed
mappings are admitted; the attributes default to the empty mapping `{}` when
not supplied; and a successfully inserted row is stored with its attributes
value unchanged (exact structural round-trip through the store). -/
theorem attributes_default_and_roundtrip :
    (∀ cid ppk, ({ cell_id := cid, project_pkey := ppk } : Cell).attributes
        = Json.obj [])
    ∧ (∀ cpk did, ({ cell_pkey := cpk, device_id := did } : Device).attributes
        = Json.obj [])
    ∧ (∀ wid ppk, ({ wafer_id := wid, project_pkey := ppk } : Wafer).attributes
        = Json.obj [])
    ∧ (∀ (dx dy : Int) wpk,
        ({ x := dx, y := dy, wafer_pkey := wpk } : Die).attributes
        = Json.obj [])
    ∧ (∀ dt pth dpk, ({ data_type := dt, path := pth, device_pkey := dpk } :
        DeviceData).attributes = Json.obj [])
    ∧ (∀ pj oj spl ihs apk,
        ({ parameters := pj, output := oj, summary_plot := spl,
           input_hash := ihs, analysis_function_pkey := apk } :
          Analysis).attributes = Json.obj [])
    ∧ (∀ s r s2 r2, insertCell s r = .ok (s2, r2) →
        r2 ∈ s2.cells ∧ r2.attributes = r.attributes)
    ∧ (∀ s r s2 r2, insertDevice s r = .ok (s2, r2) →
        r2 ∈ s2.devices ∧ r2.attributes = r.attributes)
    ∧ (∀ s r s2 r2, insertWafer s r = .ok (s2, r2) →
        r2 ∈ s2.wafers ∧ r2.attributes = r.attributes)
    ∧ (∀ s r s2 r2, insertDie s r = .ok (s2, r2) →
        r2 ∈ s2.dies ∧ r2.attributes = r.attributes)
    ∧ (∀ s r s2 r2, insertDeviceData s r = .ok (s2, r2) →
        r2 ∈ s2.device_data ∧ r2.attributes = r.attributes)
    ∧ (∀ s r s2 r2, insertAnalysis s r = .ok (s2, r2) →
        r2 ∈ s2.analyses ∧ r2.attributes = r.attributes) := by
  refine ⟨fun cid ppk => rfl, fun cpk did => rfl, fun wid ppk => rfl,
    fun dx dy wpk => rfl, fun dt pth dpk => rfl, fun pj oj spl ihs apk => rfl,
    ?_, ?_, ?_, ?_, ?_, ?_⟩
  · intro s r s2 r2 h
    unfold insertCell at h
    split at h
    · split at h
      · exact Except.noConfusion h
      · simp only [Except.ok.injEq, Prod.mk.injEq] at h
        obtain ⟨rfl, rfl⟩ := h
        exact ⟨List.mem_append_right _ (List.mem_cons_self _ _), rfl⟩
    · exact Except.noConfusion h
  · intro s r s2 r2 h
    unfold insertDevice at h
    split at h
    · split at h
      · split at h
        · exact Except.noConfusion h
        · simp only [Except.ok.injEq, Prod.mk.injEq] at h
          obtain ⟨rfl, rfl⟩ := h
          exact ⟨List.mem_append_right _ (List.mem_cons_self _ _), rfl⟩
      · exact Except.noConfusion h
    · exact Except.noConfusion h
  · intro s r s2 r2 h
    unfold insertWafer at h
    split at h
    · split at h
      · exact Except.noConfusion h
      · simp only [Except.ok.injEq, Prod.mk.injEq] at h
        obtain ⟨rfl, rfl⟩ := h
        exact ⟨List.mem_append_right _ (List.mem_cons_self _ _), rfl⟩
    · exact Except.noConfusion h
  · intro s r s2 r2 h
    unfold insertDie at h
    split at h
    · split at h
      · exact Except.noConfusion h
      · simp only [Except.ok.injEq, Prod.mk.injEq] at h
        obtain ⟨rfl, rfl⟩ := h
        exact ⟨List.mem_append_right _ (List.mem_cons_self _ _), rfl⟩
    · exact Except.noConfusion h
  · intro s r s2 r2 h
    unfold insertDeviceData at h
    split at h
    · simp only [Except.ok.injEq, Prod.mk.injEq] at h
      obtain ⟨rfl, rfl⟩ := h
      exact ⟨List.mem_append_right _ (List.mem_cons_self _ _), rfl⟩
    · exact Except.noConfusion h
  · intro s r s2 r2 h
    unfold insertAnalysis at h
    split at h
    · split at h
      · simp only [Except.ok.injEq, Prod.mk.injEq] at h
        obtain ⟨rfl, rfl⟩ := h
        exact ⟨List.mem_append_right _ (List.mem_cons_self _ _), rfl⟩
      · exact Except.noConfusion h
    · exact Except.noConfusion h

theorem attributes_default_and_roundtrip_witness :
    cellNs ∈ storeN.cells ∧ cellNs.attributes = nestedAttrs :=
  attributes_default_and_roundtrip.2.2.2.2.2.2.1 store1 cellN storeN cellNs
    rfl

/-- C5: the placement tuple of a `Device` is unique — under the invariants
(owning cell and parent cell exist, the two CHECK constraints hold for the
candidate row, and no existing row conflicts), creating a first placed
Device succeeds, and creating a second Device with the identical
`(x, y, angle, mirror, parent_cell, cell)` tuple into the resulting store
fails with `ConstraintViolation` (an error produces no new store state, so
the store is left unchanged). -/
theorem device_placement_unique (s : Store) (d d2 : Device) (pp : Nat)
    (hpar : d.parent_cell_pkey = some pp)
    (hparex : s.cells.any (fun c => c.pkey == pp) = true)
    (hcell : s.cells.any (fun c => c.pkey == d.cell_pkey) = true)
    (hchk1 : unique_device_cell_references d = true)
    (hchk2 : parent_cell_coordinate_reference_not_null d = true)
    (hnoconf : s.devices.any (fun e => deviceConflict d e) = false)
    (hx : d2.x = d.x) (hy : d2.y = d.y) (hangle : d2.angle = d.angle)
    (hmirror : d2.mirror = d.mirror)
    (hpcell : d2.parent_cell_pkey = d.parent_cell_pkey)
    (hcp : d2.cell_pkey = d.cell_pkey) :
    insertDevice s d
      = .ok ({ s with
          devices := s.devices
              ++ [{ d with pkey := s.nextPkey, timestamp := s.clock }],
          nextPkey := s.nextPkey + 1, clock := s.clock + 1 },
        { d with pkey := s.nextPkey, timestamp := s.clock })
    ∧ insertDevice { s with
        devices := s.devices
            ++ [{ d with pkey := s.nextPkey, timestamp := s.clock }],
        nextPkey := s.nextPkey + 1, clock := s.clock + 1 } d2
      = .error .constraintViolation := by
  have hc1 : (unique_device_cell_references d
      && parent_cell_coordinate_reference_not_null d) = true := by
    rw [hchk1, hchk2]
    rfl
  have hc2 : (s.cells.any (fun c => c.pkey == d.cell_pkey)
      && (match d.parent_cell_pkey with
          | none => true
          | some pq => s.cells.any (fun c => c.pkey == pq))) = true := by
    rw [hpar]
    simp [hcell, hparex]
  constructor
  · unfold insertDevice
    rw [hc1, hc2, hnoconf]
    rfl
  · have hsome : ((d.x.isSome = true ∧ d.y.isSome = true)
        ∧ d.angle.isSome = true) ∧ d.mirror.isSome = true := by
      unfold parent_cell_coordinate_reference_not_null at hchk2
      rw [hpar] at hchk2
      simpa using hchk2
    obtain ⟨⟨⟨hxs, hys⟩, has⟩, hms⟩ := hsome
    obtain ⟨xv, hxv⟩ := Option.isSome_iff_exists.mp hxs
    obtain ⟨yv, hyv⟩ := Option.isSome_iff_exists.mp hys
    obtain ⟨av, hav⟩ := Option.isSome_iff_exists.mp has
    obtain ⟨mv, hmv⟩ := Option.isSome_iff_exists.mp hms
    have hd2chk1 : unique_device_cell_references d2 = true := by
      unfold unique_device_cell_references at hchk1 ⊢
      rw [hpcell, hcp]
      exact hchk1
    have hd2chk2 : parent_cell_coordinate_reference_not_null d2 = true := by
      unfold parent_cell_coordinate_reference_not_null at hchk2 ⊢
      rw [hpcell, hx, hy, hangle, hmirror]
      exact hchk2
    have hconf : deviceConflict d2
        { d with pkey := s.nextPkey, timestamp := s.clock } = true := by
      simp only [deviceConflict, unique_coord_cells_on_device,
        unique_device_ids_per_cell, hx, hy, hangle, hmirror, hpcell, hcp,
        hpar, hxv, hyv, hav, hmv]
      simp [sqlEq]
    have hany : (s.devices
        ++ [{ d with pkey := s.nextPkey, timestamp := s.clock }]).any
          (fun e => deviceConflict d2 e) = true := by
      refine List.any_eq_true.mpr
        ⟨{ d with pkey := s.nextPkey, timestamp := s.clock }, ?_, hconf⟩
      exact List.mem_append_right _ (List.mem_cons_self _ _)
    have hc1b : (unique_device_cell_references d2
        && parent_cell_coordinate_reference_not_null d2) = true := by
      rw [hd2chk1, hd2chk2]
      rfl
    have hFK : (s.cells.any (fun c => c.pkey == d2.cell_pkey)
        && (match d2.parent_cell_pkey with
            | none => true
            | some pq => s.cells.any (fun c => c.pkey == pq))) = true := by
      rw [hcp, hpcell, hpar]
      simp [hcell, hparex]
    unfold insertDevice
    dsimp only
    rw [hc1b, hFK, hany]
    rfl

theorem device_placement_unique_witness :
    insertDevice store3 inst0 = .ok (store4, inst0s)
    ∧ insertDevice store4 inst1 = .error .constraintViolation :=
  device_placement_unique store3 inst0 inst1 2 rfl rfl rfl rfl rfl rfl
    rfl rfl rfl rfl rfl rfl

end Gdatasea
